import Mathlib

/-!
Verification of the vawk stream-transformation core against its specification.

The Rust sources are shallowly embedded below:
* `src/server/src/byte_trie.rs` (the byte trie, shared verbatim with the root crate),
* `src/src/transformers.rs` (literal splitter, regex stage, filters, 2-D driver),
* `src/server/src/parsers.rs` (index-filter expression parser, separator parser),
* `src/src/websocket_connection.rs` (option setters, dispatch, continuation frames).

Bytes are modelled as `Nat` (Rust `u8`; no arithmetic is performed on bytes, only
equality tests, so no modular reduction is needed).  `HashMap<u8, ByteTrie>` is
modelled as an association list with unique keys; only the key-indexed view is
ever observed, matching the Rust map semantics.  Compiled regexes
(`regex::bytes::Regex`) are external to the repository and are modelled
abstractly by their two observable operations, `is_match` and `split`.
-/

namespace Vawk

/-- The three-valued membership answer of `byte_trie.rs`. -/
inductive Membership where
  | NotIncluded
  | Included
  | IncludedAndTerminal
deriving DecidableEq, Repr

/-- `ByteTrie` from `src/server/src/byte_trie.rs`: a node holds a map from bytes
to child tries, embedded as an association list with unique keys. -/
inductive ByteTrie where
  | mk (children : List (Nat × ByteTrie))
deriving Repr

namespace ByteTrie

/-- The `children` field accessor. -/
def children : ByteTrie → List (Nat × ByteTrie)
  | ⟨cs⟩ => cs

/-- `ByteTrie::new()`: the empty trie. -/
def new : ByteTrie := ⟨[]⟩

/-- `HashMap::get`: look up the child for a byte. -/
def getChild (t : ByteTrie) (b : Nat) : Option ByteTrie :=
  match t.children.find? (fun p => p.1 == b) with
  | some p => some p.2
  | none => none

/-- `ByteTrie::is_empty`. -/
def isEmptyT (t : ByteTrie) : Bool :=
  t.children.isEmpty

/-- `ByteTrie::insert` from `byte_trie.rs`, byte for byte:
if the path is empty, return; otherwise if a child for the head byte exists,
recurse into it with the tail, and if not, insert a fresh **empty** child for
the head byte (the tail of the path is dropped — this is what the source does). -/
def insert (t : ByteTrie) (path : List Nat) : ByteTrie :=
  match path with
  | [] => t
  | head :: tail =>
    match t.getChild head with
    | some _ =>
      ⟨t.children.map (fun p => if p.1 == head then (p.1, p.2.insert tail) else p)⟩
    | none =>
      ⟨t.children ++ [(head, ByteTrie.new)]⟩

/-- `ByteTrie::membership` from `byte_trie.rs`. -/
def membership (t : ByteTrie) (path : List Nat) : Membership :=
  match path with
  | [] => Membership.NotIncluded
  | head :: tail =>
    match t.getChild head with
    | some child =>
      if tail.isEmpty && child.isEmptyT then Membership.IncludedAndTerminal
      else if tail.isEmpty then Membership.Included
      else child.membership tail
    | none => Membership.NotIncluded

end ByteTrie

/-- `IndexFilter` from `src/server/src/parsers.rs` (identical in the root crate). -/
inductive IndexFilter where
  | Bounded (lower upper : Nat)
  | LowerBounded (lower : Nat)
  | UpperBounded (upper : Nat)
  | Exact (j : Nat)
deriving DecidableEq, Repr

/-- `IndexFilter::is_match`. -/
def IndexFilter.is_match : IndexFilter → Nat → Bool
  | .Bounded lower upper, i => decide (i ≥ lower) && decide (i < upper)
  | .LowerBounded lower, i => decide (i ≥ lower)
  | .UpperBounded upper, i => decide (i < upper)
  | .Exact j, i => i == j

/-- `Combination` from `src/src/transformers.rs`. -/
inductive Combination where
  | And
  | Or
deriving DecidableEq, Repr

/-- A compiled `regex::bytes::Regex` is produced by an external library; it is
modelled by its two operations the transformer observes: `is_match` on a byte
sequence and `split` into byte sequences. -/
structure RegexModel where
  is_match : List Nat → Bool
  split : List Nat → List (List Nat)

/-- `Options` from `src/src/transformers.rs`. -/
structure Options where
  separators : Option ByteTrie
  regex_separator : Option RegexModel
  regex_filter : Option RegexModel
  index_filters : Option (List IndexFilter)
  filters_combination : Option Combination

/-- `Options::default()`. -/
def Options.default : Options := ⟨none, none, none, none, none⟩

/-- The mutable state of the `split` loop in `transformers.rs`:
the emitted segments, `current_line`, and `current_separator`. -/
structure SplitState where
  result : List (List Nat)
  current_line : List Nat
  current_separator : List Nat

/-- One iteration of the `for byte in data` loop of `split` in
`src/src/transformers.rs`: push the byte onto `current_separator`, query the
trie, and dispatch exactly as the Rust `match` does (including the guard order:
the `if !current_line.is_empty()` arms come first). -/
def splitStep (separators : ByteTrie) (st : SplitState) (byte : Nat) : SplitState :=
  let cand := st.current_separator ++ [byte]
  match separators.membership cand with
  | .NotIncluded =>
    { st with current_line := st.current_line ++ [byte], current_separator := [] }
  | .Included =>
    if st.current_line.isEmpty then { st with current_separator := cand }
    else { result := st.result ++ [st.current_line], current_line := [], current_separator := cand }
  | .IncludedAndTerminal =>
    if st.current_line.isEmpty then { st with current_separator := [] }
    else { result := st.result ++ [st.current_line], current_line := [], current_separator := [] }

/-- `split` from `src/src/transformers.rs` (the literal splitter): fold the
loop body over the buffer, then emit a trailing non-empty `current_line`. -/
def split (separators : ByteTrie) (data : List Nat) : List (List Nat) :=
  let st := data.foldl (splitStep separators) ⟨[], [], []⟩
  if st.current_line.isEmpty then st.result else st.result ++ [st.current_line]

/-- Modelled from the spec (§4.3.1), NOT from the source: one step of the
specified literal-splitter algorithm.  It differs from `splitStep` in two
arms: on `NotIncluded` it appends *every byte of the candidate separator* to
the current segment, and on `Included` it only keeps accumulating and never
emits. -/
def splitSpecStep (separators : ByteTrie) (st : SplitState) (byte : Nat) : SplitState :=
  let cand := st.current_separator ++ [byte]
  match separators.membership cand with
  | .NotIncluded =>
    { st with current_line := st.current_line ++ cand, current_separator := [] }
  | .Included =>
    { st with current_separator := cand }
  | .IncludedAndTerminal =>
    if st.current_line.isEmpty then { st with current_separator := [] }
    else { result := st.result ++ [st.current_line], current_line := [], current_separator := [] }

/-- Modelled from the spec (§4.3.1), NOT from the source: the specified
literal splitter. -/
def splitSpecModel (separators : ByteTrie) (data : List Nat) : List (List Nat) :=
  let st := data.foldl (splitSpecStep separators) ⟨[], [], []⟩
  if st.current_line.isEmpty then st.result else st.result ++ [st.current_line]

/-- `split_all` from `src/src/transformers.rs`: literal split (or the whole
buffer as one segment), then per-segment regex split, flattened in order. -/
def split_all (opts : Options) (data : List Nat) : List (List Nat) :=
  let result := match opts.separators with
    | none => [data]
    | some separators => split separators data
  match opts.regex_separator with
  | none => result
  | some regex_separator => (result.map regex_separator.split).flatten

/-- The `should_keep` match of `keep_matches` in `src/src/transformers.rs`,
with the five arms in source order. -/
def shouldKeep (opts : Options) (i : Nat) (field : List Nat) : Bool :=
  match opts.index_filters, opts.regex_filter, opts.filters_combination with
  | none, none, _ => true
  | some index_filters, none, _ => index_filters.any (fun rule => rule.is_match i)
  | none, some regex_filter, _ => regex_filter.is_match field
  | some index_filters, some regex_filter, some .Or =>
    index_filters.any (fun rule => rule.is_match i) || regex_filter.is_match field
  | some index_filters, some regex_filter, _ =>
    index_filters.any (fun rule => rule.is_match i) && regex_filter.is_match field

/-- `keep_matches` from `src/src/transformers.rs`: `for i in 0..data.len()`,
keep `data[i]` when `should_keep` holds. -/
def keep_matches (opts : Options) (data : List (List Nat)) : List (List Nat) :=
  (List.range data.length).filterMap
    (fun i => if shouldKeep opts i (data.getD i []) then some (data.getD i []) else none)

/-- `split_into_records` from `src/src/transformers.rs`. -/
def split_into_records (opts : Options) (data : List Nat) : List (List Nat) :=
  keep_matches opts (split_all opts data)

/-- The `longest_number_of_cells` loop of `transform_output`. -/
def longestNumberOfCells (rows : List (List (List Nat))) : Nat :=
  rows.foldl (fun acc row => if row.length > acc then row.length else acc) 0

/-- The padding loop of `transform_output`: a row shorter than the longest is
right-padded with empty cells. -/
def padRow (w : Nat) (row : List (List Nat)) : List (List Nat) :=
  if row.length < w then row ++ List.replicate (w - row.length) [] else row

/-- `transform_output` from `src/src/transformers.rs`, up to the records
handed to `csv::Writer::write_record` (the RFC 4180 byte encoding is performed
by the external `csv` crate and is not modelled): split the buffer with
`row_options`, split each row with `column_options`, and pad every row to the
longest row's cell count. -/
def transform_output_records (column_options row_options : Options) (data : List Nat) :
    List (List (List Nat)) :=
  let rows := (split_into_records row_options data).map
    (fun row_data => split_into_records column_options row_data)
  rows.map (padRow (longestNumberOfCells rows))

/-- Modelled from the spec (§4.3.5), NOT from the source: obtain rows by the
1-D split with `row_options` on the whole buffer, then apply the 1-D split
with `column_options` to each row. -/
def twoDimRowsSpec (column_options row_options : Options) (data : List Nat) :
    List (List (List Nat)) :=
  (split_into_records row_options data).map
    (fun row_bytes => split_into_records column_options row_bytes)

/-- Modelled from the spec (§4.3.3), NOT from the source: a position-indexed
filter.  `keepSpec p n segs` keeps, in order, exactly those segments whose
(absolute) position satisfies `p`; position counting starts at `n`. -/
def keepSpec (p : Nat → List Nat → Bool) : Nat → List (List Nat) → List (List Nat)
  | _, [] => []
  | n, x :: xs => if p n x then x :: keepSpec p (n + 1) xs else keepSpec p (n + 1) xs

/-- The trie holding the single separator `"\r\n"` (bytes `0x0D 0x0A`). -/
def crlfTrie : ByteTrie := ⟨[(13, ⟨[(10, ⟨[]⟩)]⟩)]⟩

/-- The trie holding the single separator `"\n"`. -/
def nlTrie : ByteTrie := ⟨[(10, ⟨[]⟩)]⟩

/-- The trie holding the single separator `"\t"`. -/
def tabTrie : ByteTrie := ⟨[(9, ⟨[]⟩)]⟩

/-- Row options that split on newline only. -/
def nlRowOptions : Options := ⟨some nlTrie, none, none, none, none⟩

/-- Column options that split on tab only. -/
def tabColumnOptions : Options := ⟨some tabTrie, none, none, none, none⟩

/-- A model of the compiled regex `/d/`: matches a byte sequence containing
`0x64`, and (unused here) splits trivially. -/
def containsD : RegexModel := ⟨fun seg => seg.contains 100, fun seg => [seg]⟩

/-! ## Parsers (`src/server/src/parsers.rs`, identical in the root crate)

The nom combinators are embedded over `List Char`: a parser maps an input to
`none` (nom `Err`) or `some (remaining, value)`.  `many0` carries explicit
fuel and, like nom's `many0`, fails if its inner parser succeeds without
consuming; with fuel exceeding the input length the fuel case is unreachable
because the inner parsers below always consume. -/

def Parser (α : Type) : Type := List Char → Option (List Char × α)

/-- nom `combinator::map`. -/
def pmap (p : Parser α) (f : α → β) : Parser β := fun s =>
  match p s with
  | none => none
  | some (rem, v) => some (rem, f v)

/-- nom `sequence::tuple` for a pair. -/
def ptuple (p : Parser α) (q : Parser β) : Parser (α × β) := fun s =>
  match p s with
  | none => none
  | some (rem, a) =>
    match q rem with
    | none => none
    | some (rem2, b) => some (rem2, (a, b))

/-- nom `branch::alt` for a pair of alternatives (tried in order). -/
def altP (p q : Parser α) : Parser α := fun s =>
  match p s with
  | some r => some r
  | none => q s

/-- nom `bytes::complete::tag`. -/
def tagP (t : List Char) : Parser Unit := fun s =>
  if t.isPrefixOf s then some (s.drop t.length, ()) else none

/-- nom `character::complete::digit1`: one or more ASCII digits. -/
def digit1 : Parser (List Char) := fun s =>
  match s with
  | [] => none
  | c :: cs =>
    if c.isDigit then some (cs.dropWhile Char.isDigit, c :: cs.takeWhile Char.isDigit)
    else none

/-- nom `character::complete::space0`: zero or more spaces or tabs. -/
def space0 : Parser Unit := fun s =>
  some (s.dropWhile (fun c => c == ' ' || c == '\t'), ())

/-- nom `sequence::delimited`. -/
def delimitedP (l : Parser α) (m : Parser β) (r : Parser γ) : Parser β :=
  pmap (ptuple (ptuple l m) r) (fun x => x.1.2)

/-- nom `sequence::preceded`. -/
def precededP (l : Parser α) (p : Parser β) : Parser β :=
  pmap (ptuple l p) Prod.snd

/-- nom `sequence::terminated`. -/
def terminatedP (p : Parser α) (r : Parser β) : Parser α :=
  pmap (ptuple p r) Prod.fst

/-- nom `sequence::separated_pair`. -/
def separatedPairP (p : Parser α) (sep : Parser β) (q : Parser γ) : Parser (α × γ) :=
  pmap (ptuple p (ptuple sep q)) (fun x => (x.1, x.2.2))

/-- nom `multi::many0` with explicit fuel, failing (like nom) when the inner
parser succeeds without consuming input. -/
def many0 (p : Parser α) : Nat → Parser (List α)
  | 0 => fun s => some (s, [])
  | fuel + 1 => fun s =>
    match p s with
    | none => some (s, [])
    | some (rem, v) =>
      if rem.length < s.length then
        match many0 p fuel rem with
        | none => none
        | some (rem2, vs) => some (rem2, v :: vs)
      else none

/-- The mathematical decimal value of a digit string.  The fallible
`usize::from_str` conversion built on it — erring on values above
`usize::MAX`, whereupon the source's `.unwrap()` panics — is
`usize_from_str` below. -/
def natOfDigits (ds : List Char) : Nat :=
  ds.foldl (fun acc c => acc * 10 + (c.toNat - 48)) 0

/-- `index` from `parsers.rs` as a TOTAL extension: the numeral's
mathematical value, with the overflow panic of
`usize::from_str(s).unwrap()` collapsed.  The faithful embedding is
`indexP` below, which propagates the panic; `sim_index_filters` proves the
two stacks agree on every input whose run does not panic, and the panic
case is surfaced in the index-filter claims through `index_filtersP`. -/
def index : Parser Nat := pmap digit1 natOfDigits

/-- `bounded` from `parsers.rs`. -/
def bounded : Parser IndexFilter :=
  pmap (separatedPairP index (tagP ['.', '.']) index)
    (fun p => IndexFilter.Bounded p.1 p.2)

/-- `lower_bounded` from `parsers.rs`. -/
def lower_bounded : Parser IndexFilter :=
  pmap (terminatedP index (tagP ['.', '.'])) IndexFilter.LowerBounded

/-- `upper_bounded` from `parsers.rs`. -/
def upper_bounded : Parser IndexFilter :=
  pmap (precededP (tagP ['.', '.']) index) IndexFilter.UpperBounded

/-- `exact` from `parsers.rs`. -/
def exact : Parser IndexFilter := pmap index IndexFilter.Exact

/-- `index_filter` from `parsers.rs`: Bounded, LowerBounded, UpperBounded,
Exact, in that order. -/
def index_filter : Parser IndexFilter :=
  altP bounded (altP lower_bounded (altP upper_bounded exact))

/-- `index_filter_separator` from `parsers.rs`. -/
def index_filter_separator : Parser Unit :=
  pmap (delimitedP space0 (tagP [',']) space0) (fun _ => ())

/-- The element parser inside `many0` of `index_filters`. -/
def index_filters_item : Parser IndexFilter :=
  altP (pmap (ptuple index_filter index_filter_separator) Prod.fst) index_filter

/-- `index_filters` from `parsers.rs`. -/
def index_filters : Parser (List IndexFilter) :=
  delimitedP space0 (fun s => many0 index_filters_item (s.length + 1) s) space0

/-- `parse_index_filters` from `parsers.rs`.  The `none` arm mirrors nom's
`Err` branch; it is dead code because `index_filters` always succeeds
(`index_filters_total` below). -/
def parse_index_filters (s : List Char) : Except (List Char) (List IndexFilter) :=
  match index_filters s with
  | none => Except.error s
  | some (unconsumed, rules) =>
    if rules.isEmpty && !unconsumed.isEmpty then Except.error unconsumed
    else Except.ok rules

/-! ### Panic-aware parser semantics

`fn index` maps `digit1` through `usize::from_str(s).unwrap()`, which panics
when the numeral exceeds `usize::MAX`; the panic aborts the whole call, which
neither `none` nor an `Except.error` of the total stack above can express.
`PResult` adds the third outcome: `panicked` propagates strictly through
every combinator (nom's `alt` never gets to try its second branch once the
first has panicked).  `sim_index_filters` then proves the total stack agrees
with this faithful one on every non-panicking input. -/

/-- The outcome of running a parser whose semantic actions may panic:
success with remaining input, a nom parse error (recoverable by `alt`),
or a Rust panic (aborts everything). -/
inductive PResult (α : Type) where
  | ok (rem : List Char) (v : α)
  | fail
  | panicked
deriving Repr

/-- A parser in the panic-aware semantics. -/
def ParserP (α : Type) : Type := List Char → PResult α

/-- A parser with no panicking action, lifted into the panic-aware
semantics. -/
def liftP (p : Parser α) : ParserP α := fun s =>
  match p s with
  | none => PResult.fail
  | some (rem, v) => PResult.ok rem v

/-- nom `combinator::map` whose mapped function may panic
(`f v = none` models the panic). -/
def pmapPanic (p : ParserP α) (f : α → Option β) : ParserP β := fun s =>
  match p s with
  | .ok rem v =>
    match f v with
    | some w => PResult.ok rem w
    | none => PResult.panicked
  | .fail => PResult.fail
  | .panicked => PResult.panicked

/-- nom `combinator::map` with a total (non-panicking) function. -/
def pmapT (p : ParserP α) (f : α → β) : ParserP β :=
  pmapPanic p (fun v => some (f v))

/-- nom `sequence::tuple` in the panic-aware semantics. -/
def ptupleP (p : ParserP α) (q : ParserP β) : ParserP (α × β) := fun s =>
  match p s with
  | .ok rem a =>
    match q rem with
    | .ok rem2 b => PResult.ok rem2 (a, b)
    | .fail => PResult.fail
    | .panicked => PResult.panicked
  | .fail => PResult.fail
  | .panicked => PResult.panicked

/-- nom `branch::alt`: a panic in the first branch aborts; only a parse
failure lets the second branch run. -/
def altPP (p q : ParserP α) : ParserP α := fun s =>
  match p s with
  | .ok rem v => PResult.ok rem v
  | .panicked => PResult.panicked
  | .fail => q s

/-- nom `sequence::delimited` in the panic-aware semantics. -/
def delimitedPP (l : ParserP α) (m : ParserP β) (r : ParserP γ) : ParserP β :=
  pmapT (ptupleP (ptupleP l m) r) (fun x => x.1.2)

/-- nom `sequence::preceded` in the panic-aware semantics. -/
def precededPP (l : ParserP α) (p : ParserP β) : ParserP β :=
  pmapT (ptupleP l p) Prod.snd

/-- nom `sequence::terminated` in the panic-aware semantics. -/
def terminatedPP (p : ParserP α) (r : ParserP β) : ParserP α :=
  pmapT (ptupleP p r) Prod.fst

/-- nom `sequence::separated_pair` in the panic-aware semantics. -/
def separatedPairPP (p : ParserP α) (sep : ParserP β) (q : ParserP γ) :
    ParserP (α × γ) :=
  pmapT (ptupleP p (ptupleP sep q)) (fun x => (x.1, x.2.2))

/-- nom `multi::many0` in the panic-aware semantics: a panic of the inner
parser aborts the loop; a parse failure ends it. -/
def many0P (p : ParserP α) : Nat → ParserP (List α)
  | 0 => fun s => PResult.ok s []
  | fuel + 1 => fun s =>
    match p s with
    | .panicked => PResult.panicked
    | .fail => PResult.ok s []
    | .ok rem v =>
      if rem.length < s.length then
        match many0P p fuel rem with
        | .panicked => PResult.panicked
        | .fail => PResult.fail
        | .ok rem2 vs => PResult.ok rem2 (v :: vs)
      else PResult.fail

/-- `usize::MAX` for the 64-bit targets this crate builds on. -/
def usizeMAX : Nat := 18446744073709551615

/-- `usize::from_str` on the digit string `digit1` produced: the decimal
value when it fits in `usize`, `none` (→ `.unwrap()` panic) on overflow. -/
def usize_from_str (ds : List Char) : Option Nat :=
  if natOfDigits ds ≤ usizeMAX then some (natOfDigits ds) else none

/-- `index` from `parsers.rs`, faithfully: `usize::from_str(s).unwrap()`
panics on numerals exceeding `usize::MAX`. -/
def indexP : ParserP Nat := pmapPanic (liftP digit1) usize_from_str

/-- `bounded` from `parsers.rs` in the panic-aware semantics. -/
def boundedP : ParserP IndexFilter :=
  pmapT (separatedPairPP indexP (liftP (tagP ['.', '.'])) indexP)
    (fun p => IndexFilter.Bounded p.1 p.2)

/-- `lower_bounded` from `parsers.rs` in the panic-aware semantics. -/
def lower_boundedP : ParserP IndexFilter :=
  pmapT (terminatedPP indexP (liftP (tagP ['.', '.']))) IndexFilter.LowerBounded

/-- `upper_bounded` from `parsers.rs` in the panic-aware semantics. -/
def upper_boundedP : ParserP IndexFilter :=
  pmapT (precededPP (liftP (tagP ['.', '.'])) indexP) IndexFilter.UpperBounded

/-- `exact` from `parsers.rs` in the panic-aware semantics. -/
def exactP : ParserP IndexFilter := pmapT indexP IndexFilter.Exact

/-- `index_filter` from `parsers.rs` in the panic-aware semantics. -/
def index_filterP : ParserP IndexFilter :=
  altPP boundedP (altPP lower_boundedP (altPP upper_boundedP exactP))

/-- `index_filter_separator` from `parsers.rs` in the panic-aware
semantics. -/
def index_filter_separatorP : ParserP Unit :=
  pmapT (delimitedPP (liftP space0) (liftP (tagP [','])) (liftP space0)) (fun _ => ())

/-- The element parser inside `many0` of `index_filters`, panic-aware. -/
def index_filters_itemP : ParserP IndexFilter :=
  altPP (pmapT (ptupleP index_filterP index_filter_separatorP) Prod.fst) index_filterP

/-- `index_filters` from `parsers.rs` in the panic-aware semantics. -/
def index_filtersP : ParserP (List IndexFilter) :=
  delimitedPP (liftP space0)
    (fun s => many0P index_filters_itemP (s.length + 1) s) (liftP space0)

/-- `parse_index_filters` from `parsers.rs`, faithfully: `none` is the
propagated `usize` overflow panic; `some` carries the function's
`Result`. -/
def parse_index_filters_checked (s : List Char) :
    Option (Except (List Char) (List IndexFilter)) :=
  match index_filtersP s with
  | .panicked => none
  | .fail => some (Except.error s)
  | .ok unconsumed rules =>
    some (if rules.isEmpty && !unconsumed.isEmpty then Except.error unconsumed
      else Except.ok rules)

/-- The total parser `p` simulates the panic-aware `pP` away from panics:
they fail together, and agree on every success.  (On a panic of `pP` the
total parser's value is unconstrained — the program returns nothing there.) -/
def SimP (pP : ParserP α) (p : Parser α) : Prop :=
  ∀ s, (pP s = PResult.fail → p s = none)
    ∧ ∀ rem v, pP s = PResult.ok rem v → p s = some (rem, v)

/-- Rust `str::bytes()` for one char: the standard UTF-8 encoding. -/
def utf8EncodeChar (n : Nat) : List Nat :=
  if n < 128 then [n]
  else if n < 2048 then [192 + n / 64, 128 + n % 64]
  else if n < 65536 then [224 + n / 4096, 128 + n / 64 % 64, 128 + n % 64]
  else [240 + n / 262144, 128 + n / 4096 % 64, 128 + n / 64 % 64, 128 + n % 64]

/-- `escaped_field_separator` from `parsers.rs`: `\n`, `\t`, `\r`, `\s`
decode to bytes `0x0A`, `0x09`, `0x0D`, `0x20`. -/
def escaped_field_separator : Parser Nat :=
  altP (pmap (tagP ['\\', 'n']) (fun _ => 10))
    (altP (pmap (tagP ['\\', 't']) (fun _ => 9))
      (altP (pmap (tagP ['\\', 'r']) (fun _ => 13))
        (pmap (tagP ['\\', 's']) (fun _ => 32))))

/-- nom `bytes::complete::take(1usize)` on `&str`, mapped to the char's
UTF-8 bytes as in `field_separator`. -/
def take1 : Parser (List Nat) := fun s =>
  match s with
  | [] => none
  | c :: cs => some (cs, utf8EncodeChar c.toNat)

/-- The element parser inside `many0` of `field_separator`. -/
def field_separator_item : Parser (List Nat) :=
  altP (pmap escaped_field_separator (fun byte => [byte])) take1

/-- `field_separator` from `parsers.rs`: decode every character of the input
and insert the combined byte string into the trie. -/
def field_separator (input : List Char) (byte_trie : ByteTrie) :
    Option (List Char × ByteTrie) :=
  match many0 field_separator_item (input.length + 1) input with
  | none => none
  | some (rem, chunks) => some (rem, byte_trie.insert chunks.flatten)

/-- The loop of `parse_field_separators`, threading the shared trie. -/
def parse_field_separators_go (separators : ByteTrie) :
    List (List Char) → Except (List Char) ByteTrie
  | [] => Except.ok separators
  | s :: rest =>
    match field_separator s separators with
    | none => Except.error s
    | some (unconsumed, separators2) =>
      if separators2.isEmptyT && !unconsumed.isEmpty then Except.error unconsumed
      else parse_field_separators_go separators2 rest

/-- `parse_field_separators` from `parsers.rs`: each string of the list is
decoded into one separator inserted into a single shared trie. -/
def parse_field_separators (strs : List (List Char)) : Except (List Char) ByteTrie :=
  parse_field_separators_go ByteTrie.new strs

/-! ## Session (`src/src/websocket_connection.rs`)

`WebsocketConnection` option state and the `Set*` arms of `handle_message`.
The wire decode (`FromClient::parse_from_bytes`), the `Initialize` arm, and
response byte encoding are outside these claims; regex compilation
(`parsers::parse_regex`) is external and passed in as `parseRegex`. -/

structure SessionState where
  stdin : List Nat
  column_options : Options
  row_options : Options

/-- The ten `Set*` request variants of `FromClient`, with decoded payloads. -/
inductive SetMessage where
  | setColumnIndexFilters (filters : List Char)
  | setColumnRegexFilter (filter : List Char)
  | setColumnFilterCombination (combination : Option Combination)
  | setColumnSeparators (separators : List (List Char))
  | setColumnRegexSeparator (separator : List Char)
  | setRowIndexFilters (filters : List Char)
  | setRowRegexFilter (filter : List Char)
  | setRowFilterCombination (combination : Option Combination)
  | setRowSeparators (separators : List (List Char))
  | setRowRegexSeparator (separator : List Char)

/-- The errors a `Set*` handler can report via `send_error`. -/
inductive SetError where
  | invalidIndexFilters (tail : List Char)
  | invalidRegex (description : List Char)
  | invalidFieldSeparator (fragment : List Char)

/-- A `FromServer` response: the CSV records of `send_csvs`, or
`unexpected_error` from `send_error`. -/
inductive Response where
  | output (records : List (List (List Nat)))
  | unexpected_error (e : SetError)

/-- `send_csvs`: recompute the view from the fixed input buffer and the
current options (the external CSV/protobuf byte encodings are not modelled). -/
def send_csvs (st : SessionState) : Response :=
  Response.output (transform_output_records st.column_options st.row_options st.stdin)

/-- `WebsocketConnection::set_column_index_filters`. -/
def set_column_index_filters (st : SessionState) (filters : List Char) :
    SessionState × Option SetError :=
  if filters.isEmpty then
    ({ st with column_options := { st.column_options with index_filters := none } }, none)
  else
    match parse_index_filters filters with
    | .ok parsed =>
      ({ st with column_options := { st.column_options with index_filters := some parsed } }, none)
    | .error e =>
      ({ st with column_options := { st.column_options with index_filters := none } },
        some (.invalidIndexFilters e))

/-- `WebsocketConnection::set_column_regex_filter`. -/
def set_column_regex_filter (parseRegex : List Char → Except (List Char) RegexModel)
    (st : SessionState) (filter : List Char) : SessionState × Option SetError :=
  if filter.isEmpty then
    ({ st with column_options := { st.column_options with regex_filter := none } }, none)
  else
    match parseRegex filter with
    | .ok parsed =>
      ({ st with column_options := { st.column_options with regex_filter := some parsed } }, none)
    | .error e =>
      ({ st with column_options := { st.column_options with regex_filter := none } },
        some (.invalidRegex e))

/-- `WebsocketConnection::set_column_filter_combination` (never fails). -/
def set_column_filter_combination (st : SessionState) (combination : Option Combination) :
    SessionState :=
  { st with column_options := { st.column_options with filters_combination := combination } }

/-- `WebsocketConnection::set_column_separators`. -/
def set_column_separators (st : SessionState) (separators : List (List Char)) :
    SessionState × Option SetError :=
  match parse_field_separators separators with
  | .ok parsed =>
    ({ st with column_options := { st.column_options with separators := some parsed } }, none)
  | .error e =>
    ({ st with column_options := { st.column_options with separators := none } },
      some (.invalidFieldSeparator e))

/-- `WebsocketConnection::set_column_regex_separator`. -/
def set_column_regex_separator (parseRegex : List Char → Except (List Char) RegexModel)
    (st : SessionState) (separator : List Char) : SessionState × Option SetError :=
  if separator.isEmpty then
    ({ st with column_options := { st.column_options with regex_separator := none } }, none)
  else
    match parseRegex separator with
    | .ok parsed =>
      ({ st with column_options := { st.column_options with regex_separator := some parsed } },
        none)
    | .error e =>
      ({ st with column_options := { st.column_options with regex_separator := none } },
        some (.invalidRegex e))

/-- `WebsocketConnection::set_row_index_filters`. -/
def set_row_index_filters (st : SessionState) (filters : List Char) :
    SessionState × Option SetError :=
  if filters.isEmpty then
    ({ st with row_options := { st.row_options with index_filters := none } }, none)
  else
    match parse_index_filters filters with
    | .ok parsed =>
      ({ st with row_options := { st.row_options with index_filters := some parsed } }, none)
    | .error e =>
      ({ st with row_options := { st.row_options with index_filters := none } },
        some (.invalidIndexFilters e))

/-- `WebsocketConnection::set_row_regex_filter`. -/
def set_row_regex_filter (parseRegex : List Char → Except (List Char) RegexModel)
    (st : SessionState) (filter : List Char) : SessionState × Option SetError :=
  if filter.isEmpty then
    ({ st with row_options := { st.row_options with regex_filter := none } }, none)
  else
    match parseRegex filter with
    | .ok parsed =>
      ({ st with row_options := { st.row_options with regex_filter := some parsed } }, none)
    | .error e =>
      ({ st with row_options := { st.row_options with regex_filter := none } },
        some (.invalidRegex e))

/-- `WebsocketConnection::set_row_filter_combination` (never fails). -/
def set_row_filter_combination (st : SessionState) (combination : Option Combination) :
    SessionState :=
  { st with row_options := { st.row_options with filters_combination := combination } }

/-- `WebsocketConnection::set_row_separators`. -/
def set_row_separators (st : SessionState) (separators : List (List Char)) :
    SessionState × Option SetError :=
  match parse_field_separators separators with
  | .ok parsed =>
    ({ st with row_options := { st.row_options with separators := some parsed } }, none)
  | .error e =>
    ({ st with row_options := { st.row_options with separators := none } },
      some (.invalidFieldSeparator e))

/-- `WebsocketConnection::set_row_regex_separator`. -/
def set_row_regex_separator (parseRegex : List Char → Except (List Char) RegexModel)
    (st : SessionState) (separator : List Char) : SessionState × Option SetError :=
  if separator.isEmpty then
    ({ st with row_options := { st.row_options with regex_separator := none } }, none)
  else
    match parseRegex separator with
    | .ok parsed =>
      ({ st with row_options := { st.row_options with regex_separator := some parsed } }, none)
    | .error e =>
      ({ st with row_options := { st.row_options with regex_separator := none } },
        some (.invalidRegex e))

/-- The `Set*` arms of `handle_message`: run the setter; on `Err` send the
error, on `Ok` recompute and send the CSV response (combination setters never
fail). -/
def handle_set_message (parseRegex : List Char → Except (List Char) RegexModel)
    (st : SessionState) (msg : SetMessage) : SessionState × List Response :=
  match msg with
  | .setColumnIndexFilters payload =>
    match set_column_index_filters st payload with
    | (st2, some e) => (st2, [Response.unexpected_error e])
    | (st2, none) => (st2, [send_csvs st2])
  | .setColumnRegexFilter payload =>
    match set_column_regex_filter parseRegex st payload with
    | (st2, some e) => (st2, [Response.unexpected_error e])
    | (st2, none) => (st2, [send_csvs st2])
  | .setColumnFilterCombination payload =>
    let st2 := set_column_filter_combination st payload
    (st2, [send_csvs st2])
  | .setColumnSeparators payload =>
    match set_column_separators st payload with
    | (st2, some e) => (st2, [Response.unexpected_error e])
    | (st2, none) => (st2, [send_csvs st2])
  | .setColumnRegexSeparator payload =>
    match set_column_regex_separator parseRegex st payload with
    | (st2, some e) => (st2, [Response.unexpected_error e])
    | (st2, none) => (st2, [send_csvs st2])
  | .setRowIndexFilters payload =>
    match set_row_index_filters st payload with
    | (st2, some e) => (st2, [Response.unexpected_error e])
    | (st2, none) => (st2, [send_csvs st2])
  | .setRowRegexFilter payload =>
    match set_row_regex_filter parseRegex st payload with
    | (st2, some e) => (st2, [Response.unexpected_error e])
    | (st2, none) => (st2, [send_csvs st2])
  | .setRowFilterCombination payload =>
    let st2 := set_row_filter_combination st payload
    (st2, [send_csvs st2])
  | .setRowSeparators payload =>
    match set_row_separators st payload with
    | (st2, some e) => (st2, [Response.unexpected_error e])
    | (st2, none) => (st2, [send_csvs st2])
  | .setRowRegexSeparator payload =>
    match set_row_regex_separator parseRegex st payload with
    | (st2, some e) => (st2, [Response.unexpected_error e])
    | (st2, none) => (st2, [send_csvs st2])

/-- The session state with exactly the option targeted by a `Set*` message
cleared and every other field untouched (statement vocabulary for C5). -/
def clearTarget : SetMessage → SessionState → SessionState
  | .setColumnIndexFilters _, st =>
    { st with column_options := { st.column_options with index_filters := none } }
  | .setColumnRegexFilter _, st =>
    { st with column_options := { st.column_options with regex_filter := none } }
  | .setColumnFilterCombination _, st => st
  | .setColumnSeparators _, st =>
    { st with column_options := { st.column_options with separators := none } }
  | .setColumnRegexSeparator _, st =>
    { st with column_options := { st.column_options with regex_separator := none } }
  | .setRowIndexFilters _, st =>
    { st with row_options := { st.row_options with index_filters := none } }
  | .setRowRegexFilter _, st =>
    { st with row_options := { st.row_options with regex_filter := none } }
  | .setRowFilterCombination _, st => st
  | .setRowSeparators _, st =>
    { st with row_options := { st.row_options with separators := none } }
  | .setRowRegexSeparator _, st =>
    { st with row_options := { st.row_options with regex_separator := none } }

/-- A `Set*` request whose payload fails to parse or compile.  Empty regex
payloads mean "clear" and are never compiled (§4.4), so the regex cases
require a non-empty payload; combination requests carry no parse. -/
def setPayloadFails (parseRegex : List Char → Except (List Char) RegexModel) :
    SetMessage → Prop
  | .setColumnIndexFilters p => ∃ e, parse_index_filters p = Except.error e
  | .setColumnRegexFilter p => p ≠ [] ∧ ∃ e, parseRegex p = Except.error e
  | .setColumnFilterCombination _ => False
  | .setColumnSeparators ss => ∃ e, parse_field_separators ss = Except.error e
  | .setColumnRegexSeparator p => p ≠ [] ∧ ∃ e, parseRegex p = Except.error e
  | .setRowIndexFilters p => ∃ e, parse_index_filters p = Except.error e
  | .setRowRegexFilter p => p ≠ [] ∧ ∃ e, parseRegex p = Except.error e
  | .setRowFilterCombination _ => False
  | .setRowSeparators ss => ∃ e, parse_field_separators ss = Except.error e
  | .setRowRegexSeparator p => p ≠ [] ∧ ∃ e, parseRegex p = Except.error e

/-! ## Continuation reassembly (`src/src/websocket_connection.rs`) -/

/-- The `ws::Message::Continuation` items the stream handler receives. -/
inductive FramePart where
  | firstText (data : List Nat)
  | firstBinary (data : List Nat)
  | continuePart (data : List Nat)
  | lastPart (data : List Nat)

/-- `set_first_frame_part`: replace the continuation buffer with the data. -/
def set_first_frame_part (data : List Nat) (_frame : Option (List Nat)) :
    Option (List Nat) :=
  some data

/-- `set_frame_part`: extend the buffer, or treat the part as a first part
when no buffer exists. -/
def set_frame_part (data : List Nat) : Option (List Nat) → Option (List Nat)
  | none => set_first_frame_part data none
  | some buf => some (buf ++ data)

/-- `set_last_frame_part` (same body as `set_frame_part` in the source). -/
def set_last_frame_part (data : List Nat) : Option (List Nat) → Option (List Nat)
  | none => set_first_frame_part data none
  | some buf => some (buf ++ data)

/-- `send_full_continuation_frame`: dispatch the buffered bytes (if any) to
`handle_message`; the buffer is left untouched. -/
def send_full_continuation_frame (frame : Option (List Nat)) : List (List Nat) :=
  match frame with
  | none => []
  | some data => [data]

/-- The `Continuation` arms of `StreamHandler::handle`: returns the new
continuation buffer and the list of assembled messages dispatched. -/
def handle_frame (st : Option (List Nat)) : FramePart → Option (List Nat) × List (List Nat)
  | .firstText data => (set_first_frame_part data st, [])
  | .firstBinary data => (set_first_frame_part data st, [])
  | .continuePart data => (set_frame_part data st, [])
  | .lastPart data =>
    let st2 := set_last_frame_part data st
    (st2, send_full_continuation_frame st2)

/-- Feed a sequence of continuation parts, collecting dispatched messages. -/
def run_frames (st : Option (List Nat)) (frames : List FramePart) :
    Option (List Nat) × List (List Nat) :=
  frames.foldl (fun acc f =>
    let step := handle_frame acc.1 f
    (step.1, acc.2 ++ step.2)) (st, [])

/-- A parser that, whenever it succeeds, consumes at least one character. -/
def Consuming (p : Parser α) : Prop :=
  ∀ s rem v, p s = some (rem, v) → rem.length < s.length

/-- A parser that never returns more input than it was given. -/
def NonExpanding (p : Parser α) : Prop :=
  ∀ s rem v, p s = some (rem, v) → rem.length ≤ s.length


end Vawk

namespace Vawk


/-- `keep_matches` walks `0..data.len()` accessing `data[i]`; this bridges the
index-based loop to the structural position-indexed filter `keepSpec`. -/
theorem range_filterMap_eq_keepSpec (p : Nat → List Nat → Bool) :
    ∀ (data : List (List Nat)) (n : Nat),
      (List.range data.length).filterMap
        (fun i => if p (n + i) (data.getD i []) then some (data.getD i []) else none)
      = keepSpec p n data := by
  intro data
  induction data with
  | nil => intro n; rfl
  | cons x xs ih =>
    intro n
    rw [List.length_cons, List.range_succ_eq_map, List.filterMap_cons, List.filterMap_map]
    have hcomp :
        ((fun i => if p (n + i) ((x :: xs).getD i []) then some ((x :: xs).getD i []) else none)
            ∘ Nat.succ)
        = (fun i => if p (n + 1 + i) (xs.getD i []) then some (xs.getD i []) else none) := by
      funext i
      show (if p (n + Nat.succ i) ((x :: xs).getD (Nat.succ i) [])
          then some ((x :: xs).getD (Nat.succ i) []) else none) = _
      have h1 : (x :: xs).getD (Nat.succ i) [] = xs.getD i [] := rfl
      have h2 : n + Nat.succ i = n + 1 + i := by omega
      rw [h1, h2]
    rw [hcomp, ih (n + 1)]
    have h3 : (x :: xs).getD 0 [] = x := rfl
    rw [h3, Nat.add_zero]
    by_cases h : p n x
    · rw [if_pos h]
      simp [keepSpec, h]
    · rw [if_neg h]
      simp [keepSpec, h]

/-- `keep_matches` is `keepSpec` over the `should_keep` predicate. -/
theorem keep_matches_eq_keepSpec (opts : Options) (data : List (List Nat)) :
    keep_matches opts data = keepSpec (shouldKeep opts) 0 data := by
  have := range_filterMap_eq_keepSpec (shouldKeep opts) data 0
  simpa [keep_matches] using this

/-- C1: the literal splitter does NOT process bytes by the specified
algorithm.  With the separator trie `{"\r\n"}` and input `"a\r\nb\rc\r\nd"`
(the spec's Scenario E), the source `split` yields `["a","b","c","d"]`,
whereas the specified algorithm yields `["a","b\rc","d"]`: the source's
`NotIncluded` arm appends only the current byte (losing the `\r` of the
failed candidate), and its `Included` arm emits a segment early instead
of only accumulating. -/
theorem split_diverges_from_specified_algorithm :
    split crlfTrie [97, 13, 10, 98, 13, 99, 13, 10, 100] = [[97], [98], [99], [100]]
    ∧ splitSpecModel crlfTrie [97, 13, 10, 98, 13, 99, 13, 10, 100]
      = [[97], [98, 13, 99], [100]] := by
  exact ⟨rfl, rfl⟩

/-- C3: the 2-D driver applies the 1-D split with `row_options` to the whole
buffer and then the 1-D split with `column_options` to each resulting row:
the pre-padding rows of `transform_output` are exactly `twoDimRowsSpec`,
the definition written from the spec's words.  The concrete conjuncts pin the
orientation down observably: buffer `"a\tb\nc"` with newline row separators and
tab column separators yields rows `[["a","b"],["c"]]`, padded to
`[["a","b"],["c",""]]`. -/
theorem transform_output_outer_row_inner_column :
    (∀ (column_options row_options : Options) (data : List Nat),
      transform_output_records column_options row_options data
        = (twoDimRowsSpec column_options row_options data).map
            (padRow (longestNumberOfCells (twoDimRowsSpec column_options row_options data))))
    ∧ twoDimRowsSpec tabColumnOptions nlRowOptions [97, 9, 98, 10, 99] = [[[97], [98]], [[99]]]
    ∧ transform_output_records tabColumnOptions nlRowOptions [97, 9, 98, 10, 99]
      = [[[97], [98]], [[99], []]] := by
  exact ⟨fun _ _ _ => rfl, rfl, rfl⟩

/-- C4: with a non-empty index-filter list `I` and a regex filter `R` both
present, `keep_matches` keeps the segment at position `i` exactly when the
index match OR-combines (`combination = OR`) or AND-combines
(`combination = AND` or unset) with the regex match; `keepSpec` keeps matching
segments in their original order by construction.  The concrete conjuncts are
the spec's Scenario F: segments `["ab","cd","ef","gh"]`, index filter `0,2`,
regex `/d/`: AND keeps nothing, OR keeps `["ab","cd","ef"]`. -/
theorem keep_matches_combination (data : List (List Nat)) (I : List IndexFilter)
    (R : RegexModel) (_hI : I ≠ []) :
    keep_matches ⟨none, none, some R, some I, some Combination.Or⟩ data
      = keepSpec (fun i seg => I.any (fun rule => rule.is_match i) || R.is_match seg) 0 data
    ∧ keep_matches ⟨none, none, some R, some I, some Combination.And⟩ data
      = keepSpec (fun i seg => I.any (fun rule => rule.is_match i) && R.is_match seg) 0 data
    ∧ keep_matches ⟨none, none, some R, some I, none⟩ data
      = keepSpec (fun i seg => I.any (fun rule => rule.is_match i) && R.is_match seg) 0 data
    ∧ keep_matches ⟨none, none, some containsD, some [.Exact 0, .Exact 2],
        some Combination.And⟩ [[97, 98], [99, 100], [101, 102], [103, 104]] = []
    ∧ keep_matches ⟨none, none, some containsD, some [.Exact 0, .Exact 2],
        some Combination.Or⟩ [[97, 98], [99, 100], [101, 102], [103, 104]]
      = [[97, 98], [99, 100], [101, 102]] := by
  refine ⟨?_, ?_, ?_, rfl, rfl⟩ <;>
    exact keep_matches_eq_keepSpec _ data

/-- Witness for `keep_matches_combination` at Scenario F's inputs. -/
theorem keep_matches_combination_witness :
    ([IndexFilter.Exact 0, IndexFilter.Exact 2] ≠ ([] : List IndexFilter))
    ∧ keep_matches ⟨none, none, some containsD, some [.Exact 0, .Exact 2],
        some Combination.Or⟩ [[97, 98], [99, 100], [101, 102], [103, 104]]
      = keepSpec (fun i seg =>
          [IndexFilter.Exact 0, IndexFilter.Exact 2].any (fun rule => rule.is_match i)
            || containsD.is_match seg) 0 [[97, 98], [99, 100], [101, 102], [103, 104]] :=
  ⟨by decide,
    (keep_matches_combination [[97, 98], [99, 100], [101, 102], [103, 104]]
      [.Exact 0, .Exact 2] containsD (by decide)).1⟩

/-- The `longest_number_of_cells` fold never goes below its accumulator. -/
theorem foldl_longest_ge_init (rows : List (List (List Nat))) :
    ∀ acc : Nat,
      acc ≤ rows.foldl (fun acc row => if row.length > acc then row.length else acc) acc := by
  induction rows with
  | nil => intro acc; exact Nat.le_refl acc
  | cons x xs ih =>
    intro acc
    refine Nat.le_trans ?_ (ih (if x.length > acc then x.length else acc))
    by_cases h : x.length > acc
    · rw [if_pos h]; exact Nat.le_of_lt h
    · rw [if_neg h]

/-- Every row's length is bounded by the `longest_number_of_cells` fold. -/
theorem length_le_foldl_longest (rows : List (List (List Nat))) :
    ∀ (acc : Nat) (r : List (List Nat)), r ∈ rows →
      r.length ≤ rows.foldl (fun acc row => if row.length > acc then row.length else acc) acc := by
  induction rows with
  | nil => intro _ _ h; cases h
  | cons x xs ih =>
    intro acc r hr
    rw [List.foldl_cons]
    rcases List.mem_cons.mp hr with h | h
    · subst h
      refine Nat.le_trans ?_ (foldl_longest_ge_init xs _)
      by_cases hx : r.length > acc
      · rw [if_pos hx]
      · rw [if_neg hx]; exact Nat.le_of_not_lt hx
    · exact ih _ r h

/-- A row no longer than `w` is padded to exactly `w` cells. -/
theorem padRow_length (w : Nat) (row : List (List Nat)) (h : row.length ≤ w) :
    (padRow w row).length = w := by
  unfold padRow
  by_cases hlt : row.length < w
  · rw [if_pos hlt, List.length_append, List.length_replicate]
    omega
  · rw [if_neg hlt]
    omega

/-- C7: every row `transform_output` hands to the CSV writer has exactly `W`
cells, where `W` is the maximum cell count over the rows of the current view
(the 2-D split before padding): short rows are right-padded with empty cells
and no row exceeds `W`. -/
theorem transform_output_rows_rectangular (column_options row_options : Options)
    (data : List Nat) (r : List (List Nat))
    (hr : r ∈ transform_output_records column_options row_options data) :
    r.length = longestNumberOfCells (twoDimRowsSpec column_options row_options data) := by
  have hrows : transform_output_records column_options row_options data
      = (twoDimRowsSpec column_options row_options data).map
          (padRow (longestNumberOfCells (twoDimRowsSpec column_options row_options data))) := rfl
  rw [hrows] at hr
  rcases List.mem_map.mp hr with ⟨r0, hr0, hpad⟩
  rw [← hpad]
  exact padRow_length _ r0
    (length_le_foldl_longest (twoDimRowsSpec column_options row_options data) 0 r0 hr0)

/-- Witness for `transform_output_rows_rectangular`: in the padded output for
buffer `"a\tb\nc"`, the row `["a","b"]` has exactly the maximal width 2. -/
theorem transform_output_rows_rectangular_witness :
    [[97], [98]] ∈ transform_output_records tabColumnOptions nlRowOptions [97, 9, 98, 10, 99]
    ∧ ([[97], [98]] : List (List Nat)).length
      = longestNumberOfCells (twoDimRowsSpec tabColumnOptions nlRowOptions [97, 9, 98, 10, 99]) :=
  ⟨by decide,
    transform_output_rows_rectangular tabColumnOptions nlRowOptions [97, 9, 98, 10, 99]
      [[97], [98]] (by decide)⟩


theorem Consuming.nonExpanding {p : Parser α} (h : Consuming p) : NonExpanding p :=
  fun s rem v hp => Nat.le_of_lt (h s rem v hp)

theorem pmap_consuming {p : Parser α} (f : α → β) (h : Consuming p) :
    Consuming (pmap p f) := by
  intro s rem v hp
  unfold pmap at hp
  split at hp
  · cases hp
  · rename_i rem1 a heq
    cases hp
    exact h s _ _ heq

theorem ptuple_consuming_left {p : Parser α} {q : Parser β}
    (hp : Consuming p) (hq : NonExpanding q) : Consuming (ptuple p q) := by
  intro s rem v h
  unfold ptuple at h
  split at h
  · cases h
  · rename_i rem1 a heq
    split at h
    · cases h
    · rename_i rem2 b heq2
      cases h
      exact Nat.lt_of_le_of_lt (hq _ _ _ heq2) (hp s _ _ heq)

theorem ptuple_consuming_right {p : Parser α} {q : Parser β}
    (hp : NonExpanding p) (hq : Consuming q) : Consuming (ptuple p q) := by
  intro s rem v h
  unfold ptuple at h
  split at h
  · cases h
  · rename_i rem1 a heq
    split at h
    · cases h
    · rename_i rem2 b heq2
      cases h
      exact Nat.lt_of_lt_of_le (hq _ _ _ heq2) (hp s _ _ heq)

theorem altP_consuming {p q : Parser α} (hp : Consuming p) (hq : Consuming q) :
    Consuming (altP p q) := by
  intro s rem v h
  unfold altP at h
  split at h
  · rename_i r heq
    cases h
    exact hp s _ _ heq
  · exact hq s rem v h

theorem isPrefixOf_length_le :
    ∀ (t s : List Char), t.isPrefixOf s = true → t.length ≤ s.length := by
  intro t
  induction t with
  | nil => intro s _; exact Nat.zero_le _
  | cons c cs ih =>
    intro s h
    cases s with
    | nil => simp [List.isPrefixOf] at h
    | cons d ds =>
      simp only [List.isPrefixOf, Bool.and_eq_true] at h
      have := ih ds h.2
      simp only [List.length_cons]
      omega

theorem tagP_consuming (t : List Char) (ht : t ≠ []) : Consuming (tagP t) := by
  intro s rem v h
  unfold tagP at h
  by_cases hpre : t.isPrefixOf s
  · rw [if_pos hpre] at h
    cases h
    have hle : t.length ≤ s.length := isPrefixOf_length_le t s hpre
    have ht' : 0 < t.length := List.length_pos.mpr ht
    rw [List.length_drop]
    omega
  · rw [if_neg hpre] at h; cases h

theorem digit1_consuming : Consuming digit1 := by
  intro s rem v h
  unfold digit1 at h
  split at h
  · cases h
  · rename_i c cs
    split at h
    · cases h
      have := (List.dropWhile_sublist (l := cs) Char.isDigit).length_le
      simp only [List.length_cons]
      omega
    · cases h

theorem space0_nonExpanding : NonExpanding space0 := by
  intro s rem v h
  unfold space0 at h
  cases h
  exact (List.dropWhile_sublist _).length_le

theorem index_consuming : Consuming index :=
  pmap_consuming _ digit1_consuming

theorem index_filter_consuming : Consuming index_filter := by
  have htag : Consuming (tagP ['.', '.']) := tagP_consuming _ (by decide)
  refine altP_consuming ?_ (altP_consuming ?_ (altP_consuming ?_ ?_))
  · exact pmap_consuming _ (pmap_consuming _
      (ptuple_consuming_left index_consuming
        (ptuple_consuming_left htag index_consuming.nonExpanding).nonExpanding))
  · exact pmap_consuming _ (pmap_consuming _
      (ptuple_consuming_left index_consuming htag.nonExpanding))
  · exact pmap_consuming _ (pmap_consuming _
      (ptuple_consuming_left htag index_consuming.nonExpanding))
  · exact pmap_consuming _ index_consuming

theorem index_filter_separator_consuming : Consuming index_filter_separator := by
  have htag : Consuming (tagP [',']) := tagP_consuming _ (by decide)
  exact pmap_consuming _ (pmap_consuming _
    (ptuple_consuming_left (ptuple_consuming_right space0_nonExpanding htag)
      space0_nonExpanding))

theorem index_filters_item_consuming : Consuming index_filters_item :=
  altP_consuming
    (pmap_consuming _ (ptuple_consuming_left index_filter_consuming
      index_filter_separator_consuming.nonExpanding))
    index_filter_consuming

/-- With a consuming inner parser and enough fuel, `many0` always succeeds. -/
theorem many0_isSome {p : Parser α} (hp : Consuming p) :
    ∀ (fuel : Nat) (s : List Char), s.length < fuel → (many0 p fuel s).isSome := by
  intro fuel
  induction fuel with
  | zero => intro s h; omega
  | succ n ih =>
    intro s hs
    unfold many0
    split
    · rfl
    · rename_i rem v heq
      have hlt := hp s rem v heq
      rw [if_pos hlt]
      have hrec := ih rem (by omega)
      split
      · rename_i heq2
        rw [heq2] at hrec
        cases hrec
      · rfl

/-- `index_filters` never fails: nom's `Err` branch of `parse_index_filters`
is unreachable. -/
theorem index_filters_total (s : List Char) :
    ∃ rem rules, index_filters s = some (rem, rules) := by
  set s1 := s.dropWhile (fun c => c == ' ' || c == '\t') with hs1
  have hinner := many0_isSome index_filters_item_consuming (s1.length + 1) s1 (by omega)
  cases hm : many0 index_filters_item (s1.length + 1) s1 with
  | none => rw [hm] at hinner; cases hinner
  | some r =>
    refine ⟨r.1.dropWhile (fun c => c == ' ' || c == '\t'), r.2, ?_⟩
    simp only [index_filters, delimitedP, pmap, ptuple, space0, ← hs1, hm]

theorem simP_lift (p : Parser α) : SimP (liftP p) p := by
  intro s
  cases hps : p s with
  | none =>
    refine ⟨fun _ => rfl, fun rem v h => ?_⟩
    rw [show liftP p s = PResult.fail from by simp [liftP, hps]] at h
    cases h
  | some r =>
    obtain ⟨rem1, a⟩ := r
    have hl : liftP p s = PResult.ok rem1 a := by simp [liftP, hps]
    refine ⟨fun h => ?_, fun rem v h => ?_⟩
    · rw [hl] at h; cases h
    · rw [hl] at h
      cases h
      rfl

theorem simP_pmapT {pP : ParserP α} {p : Parser α} (f : α → β) (h : SimP pP p) :
    SimP (pmapT pP f) (pmap p f) := by
  intro s
  obtain ⟨hfail, hok⟩ := h s
  constructor
  · intro hf
    unfold pmapT pmapPanic at hf
    split at hf
    · cases hf
    · rename_i heq
      simp [pmap, hfail heq]
    · cases hf
  · intro rem v hv
    unfold pmapT pmapPanic at hv
    split at hv
    · rename_i rem1 a heq
      cases hv
      simp [pmap, hok _ _ heq]
    · cases hv
    · cases hv

theorem simP_ptuple {pP : ParserP α} {p : Parser α} {qP : ParserP β} {q : Parser β}
    (hp : SimP pP p) (hq : SimP qP q) : SimP (ptupleP pP qP) (ptuple p q) := by
  intro s
  obtain ⟨hpf, hpo⟩ := hp s
  constructor
  · intro h
    unfold ptupleP at h
    split at h
    · rename_i rem1 a heq
      split at h
      · cases h
      · rename_i heq2
        simp [ptuple, hpo _ _ heq, (hq rem1).1 heq2]
      · cases h
    · rename_i heq
      simp [ptuple, hpf heq]
    · cases h
  · intro rem v h
    unfold ptupleP at h
    split at h
    · rename_i rem1 a heq
      split at h
      · rename_i rem2 b heq2
        cases h
        simp [ptuple, hpo _ _ heq, (hq rem1).2 _ _ heq2]
      · cases h
      · cases h
    · cases h
    · cases h

theorem simP_alt {pP : ParserP α} {p : Parser α} {qP : ParserP α} {q : Parser α}
    (hp : SimP pP p) (hq : SimP qP q) : SimP (altPP pP qP) (altP p q) := by
  intro s
  obtain ⟨hpf, hpo⟩ := hp s
  constructor
  · intro h
    unfold altPP at h
    split at h
    · cases h
    · cases h
    · rename_i heq
      simp [altP, hpf heq]
      exact (hq s).1 h
  · intro rem v h
    unfold altPP at h
    split at h
    · rename_i rem1 a heq
      cases h
      simp [altP, hpo _ _ heq]
    · cases h
    · rename_i heq
      simp [altP, hpf heq]
      exact (hq s).2 _ _ h

theorem simP_many0 {pP : ParserP α} {p : Parser α} (h : SimP pP p) :
    ∀ fuel, SimP (many0P pP fuel) (many0 p fuel) := by
  intro fuel
  induction fuel with
  | zero =>
    intro s
    refine ⟨fun hf => ?_, fun rem v hv => ?_⟩
    · cases hf
    · cases hv
      rfl
  | succ n ih =>
    intro s
    obtain ⟨hpf, hpo⟩ := h s
    constructor
    · intro hf
      unfold many0P at hf
      split at hf
      · cases hf
      · cases hf
      · rename_i rem1 a heq
        split at hf
        · rename_i hlt
          split at hf
          · cases hf
          · rename_i heq2
            simp [many0, hpo _ _ heq, if_pos hlt, (ih rem1).1 heq2]
          · cases hf
        · rename_i hnlt
          simp [many0, hpo _ _ heq, if_neg hnlt]
    · intro rem v hv
      unfold many0P at hv
      split at hv
      · cases hv
      · rename_i heq
        cases hv
        simp [many0, hpf heq]
      · rename_i rem1 a heq
        split at hv
        · rename_i hlt
          split at hv
          · cases hv
          · cases hv
          · rename_i rem2 vs heq2
            cases hv
            simp [many0, hpo _ _ heq, if_pos hlt, (ih rem1).2 _ _ heq2]
        · cases hv

theorem sim_index : SimP indexP index := by
  intro s
  have hl := simP_lift digit1 s
  constructor
  · intro h
    unfold indexP pmapPanic at h
    split at h
    · split at h
      · cases h
      · cases h
    · rename_i heq
      simp [index, pmap, hl.1 heq]
    · cases h
  · intro rem v h
    unfold indexP pmapPanic at h
    split at h
    · rename_i rem1 ds heq
      split at h
      · rename_i w heq2
        cases h
        have hw : v = natOfDigits ds := by
          unfold usize_from_str at heq2
          split at heq2
          · cases heq2; rfl
          · cases heq2
        simp [index, pmap, hl.2 _ _ heq, hw]
      · cases h
    · cases h
    · cases h

theorem sim_index_filter : SimP index_filterP index_filter := by
  have htag := simP_lift (tagP ['.', '.'])
  refine simP_alt ?_ (simP_alt ?_ (simP_alt ?_ ?_))
  · exact simP_pmapT _ (simP_pmapT _ (simP_ptuple sim_index (simP_ptuple htag sim_index)))
  · exact simP_pmapT _ (simP_pmapT _ (simP_ptuple sim_index htag))
  · exact simP_pmapT _ (simP_pmapT _ (simP_ptuple htag sim_index))
  · exact simP_pmapT _ sim_index

theorem sim_index_filters_item : SimP index_filters_itemP index_filters_item := by
  have hsep : SimP index_filter_separatorP index_filter_separator :=
    simP_pmapT _ (simP_pmapT _
      (simP_ptuple (simP_ptuple (simP_lift space0) (simP_lift (tagP [','])))
        (simP_lift space0)))
  exact simP_alt (simP_pmapT _ (simP_ptuple sim_index_filter hsep)) sim_index_filter

/-- Away from panics, the total index-filter parser computes exactly what the
panic-aware one does. -/
theorem sim_index_filters : SimP index_filtersP index_filters :=
  simP_pmapT _ (simP_ptuple
    (simP_ptuple (simP_lift space0)
      (fun s => simP_many0 sim_index_filters_item (s.length + 1) s))
    (simP_lift space0))

/-- The nom `Err` outcome is unreachable even in the panic-aware semantics:
`index_filters` either succeeds or panics on a `usize` overflow. -/
theorem index_filtersP_never_fails (s : List Char) :
    index_filtersP s ≠ PResult.fail := by
  intro h
  have h2 := (sim_index_filters s).1 h
  obtain ⟨rem, rules, h3⟩ := index_filters_total s
  rw [h3] at h2
  cases h2



/-- C10: `membership` applied to the empty byte sequence returns `NotIncluded`
on every trie, because `membership` short-circuits on an empty path before
looking at the trie at all. -/
theorem membership_nil_notIncluded (t : ByteTrie) :
    t.membership [] = Membership.NotIncluded := by
  rfl

/-- C2: inserting the two-byte sequence `[0x61, 0x62]` ("ab") into an empty
trie and querying membership of that very sequence yields `NotIncluded`,
not `IncludedAndTerminal` as P1 requires: `insert` drops every byte of a fresh
path after the first, so the stored "separator" is the one-byte trie `{0x61}`
(whose membership query for `[0x61]` even reports `IncludedAndTerminal`). -/
theorem insert_drops_tail_of_fresh_path :
    (ByteTrie.new.insert [97, 98]).membership [97, 98] = Membership.NotIncluded
    ∧ (ByteTrie.new.insert [97, 98]).membership [97] = Membership.IncludedAndTerminal := by
  constructor <;> rfl

/-- C9: `insert` is not idempotent.  Inserting `[0x61, 0x62]` once into the
empty trie produces `{0x61 ↦ {}}` (the tail is dropped); inserting it a second
time finds the `0x61` child and extends it with `0x62`, producing
`{0x61 ↦ {0x62 ↦ {}}}`.  The two tries differ both structurally and
observably: the membership of `[0x61]` changes from `IncludedAndTerminal`
to `Included`. -/
theorem insert_not_idempotent :
    ((ByteTrie.new.insert [97, 98]).insert [97, 98] ≠ ByteTrie.new.insert [97, 98])
    ∧ (ByteTrie.new.insert [97, 98]).membership [97] = Membership.IncludedAndTerminal
    ∧ ((ByteTrie.new.insert [97, 98]).insert [97, 98]).membership [97] = Membership.Included := by
  refine ⟨fun h => ?_, rfl, rfl⟩
  have h2 : Membership.Included = Membership.IncludedAndTerminal :=
    congrArg (fun t => ByteTrie.membership t [97]) h
  cases h2

/-- C6 counterexample: on input `"1x"` the parser consumes `1` as `Exact 1`,
leaves the non-whitespace tail `"x"` unconsumed, and `parse_index_filters`
still returns `Ok` — not the error the claim requires. -/
theorem parse_index_filters_trailing_ok :
    index_filters ['1', 'x'] = some (['x'], [IndexFilter.Exact 1])
    ∧ parse_index_filters ['1', 'x'] = Except.ok [IndexFilter.Exact 1] :=
  ⟨rfl, rfl⟩

/-- C6 amended, over the panic-aware semantics: `index_filters` never hits
nom's `Err` branch — it either succeeds or panics inside
`usize::from_str(..).unwrap()` on a numeral exceeding `usize::MAX` — and on
every successful run `parse_index_filters` returns an error (carrying the
unconsumed tail) exactly when NO rule was parsed and unconsumed text remains;
with at least one rule parsed the trailing text is ignored (the total-stack
`parse_index_filters` agrees there by `sim_index_filters`).  Concretely: the
empty input parses to the empty rule list, `"x"` (no rule, tail `"x"`) is an
error, `"1x"` still returns `Ok [Exact 1]`, and `"1,99999999999999999999"`
panics instead of returning. -/
theorem parse_index_filters_error_characterization :
    (∀ s : List Char, index_filtersP s ≠ PResult.fail)
    ∧ (∀ (s rem : List Char) (rules : List IndexFilter),
        index_filtersP s = PResult.ok rem rules →
          parse_index_filters_checked s
            = some (if rules.isEmpty && !rem.isEmpty then Except.error rem
                else Except.ok rules)
          ∧ parse_index_filters s
            = (if rules.isEmpty && !rem.isEmpty then Except.error rem
                else Except.ok rules))
    ∧ parse_index_filters_checked [] = some (Except.ok [])
    ∧ parse_index_filters_checked ['x'] = some (Except.error ['x'])
    ∧ parse_index_filters_checked ['1', 'x'] = some (Except.ok [IndexFilter.Exact 1])
    ∧ parse_index_filters_checked ('1' :: ',' :: List.replicate 20 '9') = none := by
  refine ⟨index_filtersP_never_fails, ?_, rfl, rfl, rfl, rfl⟩
  intro s rem rules h
  constructor
  · unfold parse_index_filters_checked
    rw [h]
  · have h2 := (sim_index_filters s).2 rem rules h
    unfold parse_index_filters
    rw [h2]

/-- Witness for `parse_index_filters_error_characterization` at the input
`"1x"`: the panic-aware run succeeds with rule `Exact 1` and tail `"x"`, and
both the faithful and the total `parse_index_filters` return `Ok`. -/
theorem parse_index_filters_error_characterization_witness :
    index_filtersP ['1', 'x'] = PResult.ok ['x'] [IndexFilter.Exact 1]
    ∧ parse_index_filters_checked ['1', 'x']
      = some (if ([IndexFilter.Exact 1] : List IndexFilter).isEmpty
            && !(['x'] : List Char).isEmpty
          then Except.error ['x'] else Except.ok [IndexFilter.Exact 1])
    ∧ parse_index_filters ['1', 'x']
      = (if ([IndexFilter.Exact 1] : List IndexFilter).isEmpty
            && !(['x'] : List Char).isEmpty
          then Except.error ['x'] else Except.ok [IndexFilter.Exact 1]) :=
  ⟨rfl,
    (parse_index_filters_error_characterization.2.1 ['1', 'x'] ['x']
      [IndexFilter.Exact 1] rfl).1,
    (parse_index_filters_error_characterization.2.1 ['1', 'x'] ['x']
      [IndexFilter.Exact 1] rfl).2⟩

/-- C5: a `Set*` request whose payload fails to parse or compile leaves the
session in the state with exactly that option cleared (all other options and
the input buffer unchanged, per `clearTarget`), and the only response emitted
is the error — no CSV output is recomputed. -/
theorem set_request_failure_clears_only_target
    (parseRegex : List Char → Except (List Char) RegexModel)
    (st : SessionState) (msg : SetMessage) (h : setPayloadFails parseRegex msg) :
    (handle_set_message parseRegex st msg).1 = clearTarget msg st
    ∧ ∃ e, (handle_set_message parseRegex st msg).2 = [Response.unexpected_error e] := by
  cases msg with
  | setColumnIndexFilters p =>
    obtain ⟨e, he⟩ := h
    have hp : p.isEmpty = false := by
      cases p with
      | nil => rw [show parse_index_filters [] = Except.ok [] from rfl] at he; cases he
      | cons c cs => rfl
    refine ⟨?_, SetError.invalidIndexFilters e, ?_⟩ <;>
      simp [handle_set_message, set_column_index_filters, hp, he, clearTarget]
  | setColumnRegexFilter p =>
    obtain ⟨hne, e, he⟩ := h
    have hp : p.isEmpty = false := by
      cases p with
      | nil => exact absurd rfl hne
      | cons c cs => rfl
    refine ⟨?_, SetError.invalidRegex e, ?_⟩ <;>
      simp [handle_set_message, set_column_regex_filter, hp, he, clearTarget]
  | setColumnFilterCombination c => exact h.elim
  | setColumnSeparators ss =>
    obtain ⟨e, he⟩ := h
    refine ⟨?_, SetError.invalidFieldSeparator e, ?_⟩ <;>
      simp [handle_set_message, set_column_separators, he, clearTarget]
  | setColumnRegexSeparator p =>
    obtain ⟨hne, e, he⟩ := h
    have hp : p.isEmpty = false := by
      cases p with
      | nil => exact absurd rfl hne
      | cons c cs => rfl
    refine ⟨?_, SetError.invalidRegex e, ?_⟩ <;>
      simp [handle_set_message, set_column_regex_separator, hp, he, clearTarget]
  | setRowIndexFilters p =>
    obtain ⟨e, he⟩ := h
    have hp : p.isEmpty = false := by
      cases p with
      | nil => rw [show parse_index_filters [] = Except.ok [] from rfl] at he; cases he
      | cons c cs => rfl
    refine ⟨?_, SetError.invalidIndexFilters e, ?_⟩ <;>
      simp [handle_set_message, set_row_index_filters, hp, he, clearTarget]
  | setRowRegexFilter p =>
    obtain ⟨hne, e, he⟩ := h
    have hp : p.isEmpty = false := by
      cases p with
      | nil => exact absurd rfl hne
      | cons c cs => rfl
    refine ⟨?_, SetError.invalidRegex e, ?_⟩ <;>
      simp [handle_set_message, set_row_regex_filter, hp, he, clearTarget]
  | setRowFilterCombination c => exact h.elim
  | setRowSeparators ss =>
    obtain ⟨e, he⟩ := h
    refine ⟨?_, SetError.invalidFieldSeparator e, ?_⟩ <;>
      simp [handle_set_message, set_row_separators, he, clearTarget]
  | setRowRegexSeparator p =>
    obtain ⟨hne, e, he⟩ := h
    have hp : p.isEmpty = false := by
      cases p with
      | nil => exact absurd rfl hne
      | cons c cs => rfl
    refine ⟨?_, SetError.invalidRegex e, ?_⟩ <;>
      simp [handle_set_message, set_row_regex_separator, hp, he, clearTarget]

/-- Witness for `set_request_failure_clears_only_target`: the payload `"x"`
fails to parse as index filters; the handler clears only the column index
filters and answers with a single error. -/
theorem set_request_failure_clears_only_target_witness :
    setPayloadFails (fun _ => Except.error []) (SetMessage.setColumnIndexFilters ['x'])
    ∧ ((handle_set_message (fun _ => Except.error [])
          ⟨[97], Options.default, Options.default⟩
          (SetMessage.setColumnIndexFilters ['x'])).1
        = clearTarget (SetMessage.setColumnIndexFilters ['x'])
            ⟨[97], Options.default, Options.default⟩
      ∧ ∃ e, (handle_set_message (fun _ => Except.error [])
          ⟨[97], Options.default, Options.default⟩
          (SetMessage.setColumnIndexFilters ['x'])).2 = [Response.unexpected_error e]) :=
  ⟨⟨['x'], rfl⟩,
    set_request_failure_clears_only_target (fun _ => Except.error [])
      ⟨[97], Options.default, Options.default⟩
      (SetMessage.setColumnIndexFilters ['x']) ⟨['x'], rfl⟩⟩

/-- C8: the continuation buffer is NOT cleared after an assembled message is
dispatched.  After a `Last` part carrying `"ab"` the buffer still holds
`"ab"`; a following `Last` part carrying `"cd"` extends the stale buffer, so
the second dispatched message is `"abcd"` — it includes the bytes of the
first assembled message (the claim requires it to be `"cd"`). -/
theorem continuation_buffer_not_cleared :
    run_frames none [FramePart.lastPart [97, 98]] = (some [97, 98], [[97, 98]])
    ∧ run_frames none [FramePart.lastPart [97, 98], FramePart.lastPart [99, 100]]
      = (some [97, 98, 99, 100], [[97, 98], [97, 98, 99, 100]]) :=
  ⟨rfl, rfl⟩


end Vawk
